import Mathlib

/-!
Verification of the `b2` client library (package `b2`, kardianos/b2): a shallow
embedding of its session/retry, upload orchestration, upload-URL pool, checksum
strategy and paginated-listing code, with theorems checking the specification's
claims against it.

Conventions of the embedding:
* Go errors are data (`B2Err`): either a structured API error carrying an HTTP
  status (what `UnwrapError` extracts) or an opaque non-API error.
* Network interactions are environment parameters: each function takes the
  outcomes the transport would produce and returns, besides its result, the
  requests it issued, so that claims about "which requests were sent" and
  "how many refreshes happened" are statable.
* Go `int`/`int64` are `Int`; byte streams are `List Nat` with an explicit
  read position.
-/

namespace B2

/-- A structured API error: HTTP status, machine-readable code, message.
This is the type `UnwrapError` extracts from an error. -/
structure APIError where
  status : Nat
  code : String
  message : String
deriving DecidableEq, Repr

/-- A Go `error` value in this code base: either an API error (unwrappable)
or any other error (network, decoding, validation), kept opaque. -/
inductive B2Err
  | api (e : APIError)
  | other (msg : String)
deriving DecidableEq, Repr

/-- Model of `UnwrapError` (modelled from the spec: the client's error-unwrap accessor is
defined in a source file not present here; per the spec's §6, the typed API
error is "extractable from any returned error via an unwrap accessor;
non-API errors are not unwrappable to this type"). -/
def UnwrapError : B2Err → Option APIError
  | .api e => some e
  | .other _ => none

/-- Model of `http.StatusUnauthorized`. -/
def statusUnauthorized : Nat := 401

/-- The test `UnwrapError(err); ok && err.Status == http.StatusUnauthorized`
used by `Upload` and `getWithAuth`. -/
def is401 (e : B2Err) : Bool :=
  match UnwrapError e with
  | some a => a.status == statusUnauthorized
  | none => false

/-- Model of `FileInfo` (file.go): metadata of a file version. `UploadTimestamp` is kept
as the raw millisecond count delivered by the API; the source converts it with
`time.Unix(ts/1e3, ts%1e3*1e6)`, a conversion no claim depends on. -/
structure FileInfo where
  id : String
  name : String
  contentSHA1 : String
  contentLength : Int
  contentType : String
  customMetadata : List (String × String)
  uploadTimestamp : Int
  action : String
deriving DecidableEq, Repr

/-- Model of `fileInfoObj` (file.go): the JSON shape decoded from server responses. -/
structure FileInfoObj where
  accountID : String
  bucketID : String
  contentLength : Int
  contentSHA1 : String
  contentType : String
  fileID : String
  fileInfo : List (String × String)
  fileName : String
  uploadTimestamp : Int
  action : String
deriving DecidableEq, Repr

/-- Model of `(*fileInfoObj).makeFileInfo` (file.go). -/
def makeFileInfo (fi : FileInfoObj) : FileInfo :=
  { id := fi.fileID
    name := fi.fileName
    contentSHA1 := fi.contentSHA1
    contentLength := fi.contentLength
    contentType := fi.contentType
    customMetadata := fi.fileInfo
    uploadTimestamp := fi.uploadTimestamp
    action := fi.action }

/-! ## Paginated listing (file.go, second revision in the file) -/

/-- Model of `ListOptions` (file.go). `pfx`/`dlm` model the source fields
`Prefix`/`Delimiter`. -/
structure ListOptions where
  FromName : String
  FromID : String
  pfx : String
  dlm : String
deriving DecidableEq, Repr

/-- Model of `Listing` (file.go). `bucketID` stands for the `b *Bucket` pointer (only
`l.b.ID` is ever read by `Next`); `pfx`/`dlm` model the source fields
`prefix`/`delim`; `objects` is the page buffer, stored in reverse order. -/
structure Listing where
  bucketID : String
  versions : Bool
  nextPageCount : Int
  nextName : Option String
  nextID : Option String
  pfx : String
  dlm : String
  objects : List FileInfo
  err : Option B2Err
deriving DecidableEq, Repr

/-- Model of `(*Bucket).ListFiles` (file.go): all remaining `Listing` fields take Go
zero values. -/
def ListFiles (bucketID : String) (o : ListOptions) : Listing :=
  { bucketID := bucketID
    versions := false
    nextPageCount := 0
    nextName := some o.FromName
    nextID := none
    pfx := o.pfx
    dlm := o.dlm
    objects := []
    err := none }

/-- Model of `(*Bucket).ListFileVersions` (file.go): eager validation that `FromID`
requires `FromName`; the error `Listing` has every other field zero-valued. -/
def ListFileVersions (bucketID : String) (o : ListOptions) : Listing :=
  if o.FromName = "" ∧ o.FromID ≠ "" then
    { bucketID := ""
      versions := false
      nextPageCount := 0
      nextName := none
      nextID := none
      pfx := ""
      dlm := ""
      objects := []
      err := some (.other "can't set FromID if FromName is not set") }
  else
    { bucketID := bucketID
      versions := true
      nextPageCount := 0
      nextName := some o.FromName
      nextID := some o.FromID
      pfx := o.pfx
      dlm := o.dlm
      objects := []
      err := none }

/-- Model of `(*Listing).SetPageCount` (file.go): `if n > maxCount { n = maxCount }`
with `maxCount = 1000`. -/
def SetPageCount (l : Listing) (n : Int) : Listing :=
  { l with nextPageCount := if 1000 < n then 1000 else n }

/-- The JSON payload (plus endpoint) of one list API call as built by
`(*Listing).Next`: optional keys are present exactly when the source adds them
to the `data` map. -/
structure ListReq where
  endpoint : String
  bucketId : String
  startFileName : String
  maxFileCount : Int
  startFileId : Option String
  pfxParam : Option String
  dlmParam : Option String
deriving DecidableEq, Repr

/-- Environment for one potential list API call inside `Next`: the transport
either fails (`doRequest` error), returns an undecodable body, or returns a
decoded page `{Files, NextFileName, NextFileID}`. -/
inductive FetchOutcome
  | reqError (e : B2Err)
  | decodeError (e : B2Err)
  | page (files : List FileInfoObj) (nextName nextID : Option String)
deriving DecidableEq, Repr

/-- Model of `(*Listing).Next` (file.go). Returns the boolean result, the new `Listing`
state (the source mutates `l` in place), and the request issued, if any. -/
def listingNext (l : Listing) (env : FetchOutcome) : Bool × Listing × Option ListReq :=
  if l.err.isSome then (false, l, none)
  else
    let objs := if 0 < l.objects.length then l.objects.dropLast else l.objects
    if 0 < objs.length then (true, { l with objects := objs }, none)
    else
      match l.nextName with
      | none => (false, { l with objects := objs }, none)
      | some startName =>
        let req : ListReq :=
          { endpoint := if l.versions then "b2_list_file_versions" else "b2_list_file_names"
            bucketId := l.bucketID
            startFileName := startName
            maxFileCount := l.nextPageCount
            startFileId :=
              match l.nextID with
              | some fid => if fid ≠ "" then some fid else none
              | none => none
            pfxParam := if 0 < l.pfx.length then some l.pfx else none
            dlmParam := if 0 < l.dlm.length then some l.dlm else none }
        match env with
        | .reqError e => (false, { l with objects := objs, err := some e }, some req)
        | .decodeError e => (false, { l with objects := objs, err := some e }, some req)
        | .page files nn nid =>
          let newObjs := (files.map makeFileInfo).reverse
          (decide (0 < newObjs.length),
            { l with objects := newObjs, nextName := nn, nextID := nid }, some req)

/-- Model of `(*Listing).FileInfo` (file.go) reads `l.objects[len(l.objects)-1]`; the
out-of-bounds case is `none`. -/
def listingFileInfo (l : Listing) : Option FileInfo :=
  l.objects.getLast?

/-- Model of `(*Listing).Err` (file.go). -/
def listingErr (l : Listing) : Option B2Err :=
  l.err

/-- The state after one `Next` call. -/
def nextState (l : Listing) (e : FetchOutcome) : Listing :=
  (listingNext l e).2.1

/-- The state after a sequence of `Next` calls with the given fetch outcomes. -/
def runNexts (l : Listing) (es : List FetchOutcome) : Listing :=
  es.foldl nextState l

/-- The drain protocol of a `Listing` page buffer, exactly as `Next`/`FileInfo`
consume it: the visible record is `objects[len-1]`, and each further `Next`
pops the last element (`l.objects = l.objects[:len-1]`) and keeps going while
the buffer is non-empty. The result is the sequence of records an iterating
caller observes from the current buffer. -/
def drainObjects (objs : List FileInfo) : List FileInfo :=
  match h : objs.getLast? with
  | none => []
  | some x => x :: drainObjects objs.dropLast
termination_by objs.length
decreasing_by
  have hne : objs ≠ [] := by
    intro he
    rw [he] at h
    simp at h
  have hlen : 0 < objs.length := List.length_pos.mpr hne
  simp only [List.length_dropLast]
  omega

/-- Modelled from the spec: the externally promised iteration order — plain
forward iteration over the records of a fetched page, in the server-given
order ("any order-preserving forward-iteration structure is acceptable"). -/
def specForwardIteration (files : List FileInfoObj) : List FileInfo :=
  files.map makeFileInfo

/-! ## Session-retry for downloads: `getWithAuth` (download.go) -/

/-- One HTTP GET request as built by `getWithAuth`: its URL and its `Range`
header (`none` when the header is not set). -/
structure HReq where
  url : String
  rangeHeader : Option String
deriving DecidableEq, Repr

/-- The `(res, err)` pair produced by `c.hc.Do`; the response is an opaque
handle. -/
structure DoResult where
  resp : Option Nat
  err : Option B2Err
deriving DecidableEq, Repr

/-- Environment for `getWithAuth`: outcome of the first `Do`, of `c.login`
(`none` = success) if invoked, and of the retried `Do` if reached. -/
structure GetEnv where
  do1 : DoResult
  login : Option B2Err
  do2 : DoResult
deriving Repr

/-- Model of `(*Client).getWithAuth` (download.go). Returns the `(res, err)` pair, the
list of requests issued in order, and the number of `login` (Session refresh)
calls. Note the retried request is rebuilt from the URL alone: the source does
not re-apply the `Range` header on the retry path. -/
def getWithAuth (U : String) (rng : String) (env : GetEnv) : DoResult × List HReq × Nat :=
  let req1 : HReq := { url := U, rangeHeader := if 0 < rng.length then some rng else none }
  let r1 := env.do1
  let auth401 : Bool :=
    match r1.err with
    | some e => is401 e
    | none => false
  if auth401 then
    match env.login with
    | none => (env.do2, [req1, { url := U, rangeHeader := none }], 1)
    | some le => ({ resp := r1.resp, err := some le }, [req1], 1)
  else (r1, [req1], 0)

/-! ## Upload retry loop (`(*Bucket).Upload`, upload source file) -/

/-- The `(fi, err)` pair of Go result values tracked by `Upload`'s loop. -/
structure GoPair where
  fi : Option FileInfo
  err : Option B2Err
deriving DecidableEq, Repr

/-- Outcome of one `UploadWithSHA1` call. -/
inductive UpResult
  | ok (fi : FileInfo)
  | err (e : B2Err)
deriving DecidableEq, Repr

/-- Environment for one iteration of `Upload`'s retry loop: the outcome of
`body.Seek(0, io.SeekStart)` (`none` = success), of the `UploadWithSHA1`
attempt, and of `b.c.login` (`none` = success) if invoked. -/
structure UploadIter where
  seek : Option B2Err
  attempt : UpResult
  login : Option B2Err
deriving DecidableEq, Repr

/-- Observable events of `Upload`'s retry loop, in order. -/
inductive UploadEv
  | seekOk
  | seekFail (e : B2Err)
  | attempt (r : UpResult)
  | refreshOk
  | refreshFail (e : B2Err)
deriving DecidableEq, Repr

/-- The retry loop of `(*Bucket).Upload`:
`for i := 0; i < 5; i++ { seek; attempt; on 401: login, i-- }`.
Each iteration consumes one `UploadIter` from the environment; a run that would
iterate beyond the supplied environment yields `none` (the Go loop would keep
going, e.g. under endlessly repeating 401s, whose `i--` cancels the `i++`).
Returns the `(fi, err)` pair `Upload` returns and the event trace. -/
def uploadLoop : Nat → GoPair → List UploadIter → Option GoPair × List UploadEv
  | i, last, iters =>
    if 5 ≤ i then (some last, [])
    else
      match iters with
      | [] => (none, [])
      | it :: rest =>
        match it.seek with
        | some e => (some { fi := none, err := some e }, [.seekFail e])
        | none =>
          match it.attempt with
          | .ok fi => (some { fi := some fi, err := none }, [.seekOk, .attempt (.ok fi)])
          | .err e =>
            if is401 e then
              match it.login with
              | some le =>
                (some { fi := none, err := some le },
                  [.seekOk, .attempt (.err e), .refreshFail le])
              | none =>
                ((uploadLoop i { fi := none, err := some e } rest).1,
                  .seekOk :: .attempt (.err e) :: .refreshOk ::
                    (uploadLoop i { fi := none, err := some e } rest).2)
            else
              ((uploadLoop (i + 1) { fi := none, err := some e } rest).1,
                .seekOk :: .attempt (.err e) ::
                  (uploadLoop (i + 1) { fi := none, err := some e } rest).2)

/-- Number of `UploadWithSHA1` attempts in a trace. -/
def countAttempts (t : List UploadEv) : Nat :=
  t.countP fun ev =>
    match ev with
    | .attempt _ => true
    | _ => false

/-- Number of Session refreshes (`login` calls) in a trace. -/
def countRefreshes (t : List UploadEv) : Nat :=
  t.countP fun ev =>
    match ev with
    | .refreshOk => true
    | .refreshFail _ => true
    | _ => false

/-- Number of attempts that failed with a non-401 error in a trace: exactly
the attempts that consume the 5-iteration budget. -/
def countNonAuthFails (t : List UploadEv) : Nat :=
  t.countP fun ev =>
    match ev with
    | .attempt (.err e) => !is401 e
    | _ => false

/-! ## Upload-URL lease pool (`getUploadURL` / `putUploadURL` /
`UploadWithSHA1`, upload source file) -/

/-- Model of `uploadURL` (upload source file): a leased upload endpoint plus token. -/
structure UploadURLRec where
  uploadURL : String
  authorizationToken : String
deriving DecidableEq, Repr

/-- Model of `(*Bucket).getUploadURL`: pop the last cached URL under the mutex; only
when the cache is empty, call `b2_get_upload_url` (the environment supplies
that call's decoded outcome). Returns the lease-or-error, the new cache, and
whether a control-plane request was issued. -/
def getUploadURL (pool : List UploadURLRec) (env : Except B2Err UploadURLRec) :
    Except B2Err UploadURLRec × List UploadURLRec × Bool :=
  match pool.getLast? with
  | some u => (.ok u, pool.dropLast, false)
  | none =>
    match env with
    | .error e => (.error e, pool, true)
    | .ok u => (.ok u, pool, true)

/-- Model of `(*Bucket).putUploadURL`: `b.uploadURLs = append(b.uploadURLs, u)`. -/
def putUploadURL (pool : List UploadURLRec) (u : UploadURLRec) : List UploadURLRec :=
  pool ++ [u]

/-- The data-plane POST request built by `UploadWithSHA1` (the headers not
needed by any claim — `X-Bz-File-Name`, `Content-Type`, `X-Bz-Info-*` — are
omitted from the record). -/
structure UploadReq where
  url : String
  authorization : String
  contentLength : Int
  sha1Header : String
deriving DecidableEq, Repr

/-- Outcome of the raw `c.hc.Do` of an upload attempt: a transport error, or a
response whose body either fails to decode or decodes to a `fileInfoObj`. -/
inductive UploadDoOutcome
  | doErr (e : B2Err)
  | resp (decoded : Except B2Err FileInfoObj)
deriving Repr

/-- Model of `(*Bucket).UploadWithSHA1` (upload source file), as a transition on the
upload-URL pool: lease a URL (via `getUploadURL`), issue the POST, and push
the lease back with `putUploadURL` only after the response body decoded
successfully; every failure path drops the lease. Returns the result, the new
pool, and the request issued (if the attempt got as far as building one). -/
def uploadWithSHA1 (pool : List UploadURLRec) (sha1Sum : String) (length : Int)
    (envGet : Except B2Err UploadURLRec) (envDo : UploadDoOutcome) :
    Except B2Err FileInfo × List UploadURLRec × Option UploadReq :=
  match getUploadURL pool envGet with
  | (.error e, pool1, _) => (.error e, pool1, none)
  | (.ok uurl, pool1, _) =>
    let req : UploadReq :=
      { url := uurl.uploadURL
        authorization := uurl.authorizationToken
        contentLength := length
        sha1Header := sha1Sum }
    match envDo with
    | .doErr e => (.error e, pool1, some req)
    | .resp (.error e) => (.error e, pool1, some req)
    | .resp (.ok fi) => (.ok (makeFileInfo fi), putUploadURL pool1 uurl, some req)

/-! ## Checksum strategy (`(*Bucket).Upload`, pre-loop phase) -/

/-- The reader handed to `Upload`, by the `switch r := r.(type)` cases:
a `*bytes.Buffer` (its unread contents), an `io.ReadSeeker` (its full backing
bytes plus its current read offset), or any other reader (the bytes it will
yield). Bytes are `Nat`s. -/
inductive UploadSource
  | buf (unread : List Nat)
  | seeker (data : List Nat) (pos : Nat)
  | plain (data : List Nat)
deriving DecidableEq, Repr

/-- A seekable byte stream: backing bytes plus read position. -/
structure BodyStream where
  data : List Nat
  pos : Nat
deriving DecidableEq, Repr

/-- The `body io.ReadSeeker` produced by `Upload`'s switch:
`bytes.NewReader(r.Bytes())` for a buffer, `r` itself for a seeker
(keeping its current offset), `bytes.NewReader(io.ReadAll(r))` otherwise. -/
def mkBody : UploadSource → BodyStream
  | .buf b => { data := b, pos := 0 }
  | .seeker d p => { data := d, pos := p }
  | .plain d => { data := d, pos := 0 }

/-- One full read to EOF from the current position, as `io.Copy(h, body)`
performs: the bytes delivered (those the SHA-1 is computed over) and the
stream left at EOF. -/
def readRemaining (b : BodyStream) : List Nat × BodyStream :=
  (b.data.drop b.pos, { data := b.data, pos := b.data.length })

/-- Model of `body.Seek(0, io.SeekStart)`. -/
def seekToStart (b : BodyStream) : BodyStream :=
  { data := b.data, pos := 0 }

/-- The bytes hashed by `Upload`'s checksum pass over the given source. -/
def hashedBytes (src : UploadSource) : List Nat :=
  (readRemaining (mkBody src)).1

/-- Model of `length`, the byte count returned by `io.Copy(h, body)`: this is the value
`Upload` passes to `UploadWithSHA1`, which declares it as `req.ContentLength`. -/
def uploadLength (src : UploadSource) : Int :=
  (hashedBytes src).length

/-- The bytes the body serves for transmission on an attempt: after
`body.Seek(0, io.SeekStart)`, everything from the new position. -/
def transmittedBytes (src : UploadSource) : List Nat :=
  let b := seekToStart (readRemaining (mkBody src)).2
  b.data.drop b.pos

/-! ## Concrete sample values used to instantiate theorems -/

/-- A 401 API error, as the service returns for an expired auth token. -/
def e401 : B2Err := .api { status := 401, code := "expired_auth_token", message := "token expired" }

/-- A non-API (transport) error. -/
def eOther : B2Err := .other "connection reset"

/-- A sample file record as returned by the service. -/
def objSample : FileInfoObj :=
  { accountID := "acct"
    bucketID := "bkt1"
    contentLength := 4
    contentSHA1 := "da39a3ee"
    contentType := "text/plain"
    fileID := "fid1"
    fileInfo := [("k", "v")]
    fileName := "test-0"
    uploadTimestamp := 1700000000000
    action := "upload" }

/-- A second sample file record. -/
def objSample2 : FileInfoObj :=
  { objSample with fileID := "fid2", fileName := "test-1" }

/-- Sample decoded `FileInfo` values. -/
def fiSample : FileInfo := makeFileInfo objSample

/-- A second sample `FileInfo`. -/
def fiSample2 : FileInfo := makeFileInfo objSample2

/-- Upload-loop iteration: attempt succeeds. -/
def itOk : UploadIter := { seek := none, attempt := .ok fiSample, login := none }

/-- Upload-loop iteration: attempt fails 401; the subsequent refresh succeeds. -/
def it401 : UploadIter := { seek := none, attempt := .err e401, login := none }

/-- Upload-loop iteration: attempt fails with a non-401 error. -/
def itOther : UploadIter := { seek := none, attempt := .err eOther, login := none }

/-- The `(fi, err)` pair at `Upload`'s loop entry: both Go zero values. -/
def initPair : GoPair := { fi := none, err := none }

/-- Environment driving `Upload` through one 401-failed attempt (refresh ok)
followed by five attempts failing with non-401 errors: six attempts total. -/
def iters6 : List UploadIter := [it401, itOther, itOther, itOther, itOther, itOther]

/-- Environment with a non-401 failure followed by a success. -/
def itersRetry : List UploadIter := [itOther, itOk]

/-- Sample upload-URL leases. -/
def uSample : UploadURLRec := { uploadURL := "https://pod-x/upload/1", authorizationToken := "t1" }

/-- A second sample lease. -/
def uSample2 : UploadURLRec := { uploadURL := "https://pod-y/upload/2", authorizationToken := "t2" }

/-- Model of `getWithAuth` environment: first GET fails 401, refresh succeeds, retried
GET succeeds. -/
def cexGetEnv : GetEnv :=
  { do1 := { resp := some 1, err := some e401 }
    login := none
    do2 := { resp := some 2, err := none } }

/-- A `Listing` mid-iteration: two buffered records, no error. -/
def wListing : Listing :=
  { bucketID := "bkt1"
    versions := false
    nextPageCount := 100
    nextName := some "test-2"
    nextID := none
    pfx := ""
    dlm := ""
    objects := [fiSample2, fiSample]
    err := none }

/-- A fetch outcome (unused on paths that issue no request). -/
def envSample : FetchOutcome := .page [] none none

/-! # Theorems -/

/-- C4: for every `ListOptions` with `FromID` non-empty and `FromName` empty,
`ListFileVersions` returns a `Listing` whose `Next` immediately returns
`false` (leaving the state unchanged, so every later `Next` does the same),
whose `Err` is a non-nil validation error, and which never issues a network
request (the request component is `none` for every environment). -/
theorem listFileVersions_fromID_validation (bucketID : String) (o : ListOptions)
    (h1 : o.FromID ≠ "") (h2 : o.FromName = "") :
    listingErr (ListFileVersions bucketID o) ≠ none ∧
    ∀ env, listingNext (ListFileVersions bucketID o) env =
      (false, ListFileVersions bucketID o, none) := by
  have hcond : o.FromName = "" ∧ o.FromID ≠ "" := ⟨h2, h1⟩
  constructor
  · simp [ListFileVersions, hcond, listingErr]
  · intro env
    simp [ListFileVersions, hcond, listingNext]

/-- C4 witness: a concrete options value with `FromID` set and `FromName`
empty is rejected eagerly, with no request issued. -/
theorem listFileVersions_fromID_validation_witness :
    listingErr (ListFileVersions "bkt1" { FromName := "", FromID := "4_z27c", pfx := "", dlm := "" }) ≠ none ∧
    ∀ env, listingNext (ListFileVersions "bkt1" { FromName := "", FromID := "4_z27c", pfx := "", dlm := "" }) env =
      (false, ListFileVersions "bkt1" { FromName := "", FromID := "4_z27c", pfx := "", dlm := "" }, none) :=
  listFileVersions_fromID_validation "bkt1" _ (by decide) rfl

/-- C10: whenever `Next` returns `true`, the resulting buffer is non-empty, so
`FileInfo`'s access `l.objects[len(l.objects)-1]` is in bounds and yields a
record. -/
theorem next_true_fileInfo_inbounds (l : Listing) (env : FetchOutcome)
    (h : (listingNext l env).1 = true) :
    (listingNext l env).2.1.objects ≠ [] ∧
    ((listingFileInfo (listingNext l env).2.1).isSome = true) := by
  have hne : (listingNext l env).2.1.objects ≠ [] := by
    unfold listingNext at h ⊢
    by_cases he : l.err.isSome
    · simp [he] at h
    · simp only [he, if_false, Bool.false_eq_true] at h ⊢
      by_cases hb : 0 < (if 0 < l.objects.length then l.objects.dropLast else l.objects).length
      · simp only [hb, if_true]
        exact List.length_pos.mp hb
      · simp only [hb, if_false] at h ⊢
        cases hn : l.nextName with
        | none => simp [hn] at h
        | some s =>
          simp only [hn] at h ⊢
          cases env with
          | reqError e => simp at h
          | decodeError e => simp at h
          | page files nn nid =>
            simp only [decide_eq_true_eq] at h
            simpa using List.length_pos.mp h
  exact ⟨hne, by simp [listingFileInfo, List.getLast?_isSome, hne]⟩

/-- C10 witness: on a concrete mid-iteration `Listing`, `Next` returns `true`
and `FileInfo` returns a record. -/
theorem next_true_fileInfo_inbounds_witness :
    (listingNext wListing envSample).2.1.objects ≠ [] ∧
    ((listingFileInfo (listingNext wListing envSample).2.1).isSome = true) :=
  next_true_fileInfo_inbounds wListing envSample (by decide)

/-- C9 counterexample: `SetPageCount` clamps only from above. After
`SetPageCount(0)` the next list request is sent with `maxFileCount = 0`,
which is outside the claimed range `1..1000`. -/
theorem setPageCount_zero_escapes_range :
    ((listingNext (SetPageCount (ListFiles "bkt1" { FromName := "", FromID := "", pfx := "", dlm := "" }) 0)
        envSample).2.2).map ListReq.maxFileCount = some 0 ∧
    ¬ (1 ≤ (0 : Int)) := by
  constructor
  · decide
  · decide

/-- C9 amended: after `SetPageCount(n)` the `maxFileCount` sent with each
subsequent list request equals `n` when `n ≤ 1000` (including `n ≤ 0`, which
is passed through unclamped) and equals `1000` when `n > 1000`; the page size
lies in `1..1000` exactly when the caller chose `n ≥ 1`. Each request carries
the current `nextPageCount`, and `Next` never changes that field, so the value
holds for every subsequent request. -/
theorem setPageCount_clamp (l : Listing) (n : Int) :
    (n ≤ 1000 → (SetPageCount l n).nextPageCount = n) ∧
    (1000 < n → (SetPageCount l n).nextPageCount = 1000) ∧
    (1 ≤ n → 1 ≤ (SetPageCount l n).nextPageCount ∧ (SetPageCount l n).nextPageCount ≤ 1000) ∧
    (∀ l2 env req, (listingNext l2 env).2.2 = some req → req.maxFileCount = l2.nextPageCount) ∧
    (∀ l2 env, (listingNext l2 env).2.1.nextPageCount = l2.nextPageCount) := by
  refine ⟨?hle, ?hgt, ?hrange, ?hreq, ?hpres⟩
  case hle =>
    intro hn
    simp only [SetPageCount]
    split
    · omega
    · rfl
  case hgt =>
    intro hn
    simp [SetPageCount, hn]
  case hrange =>
    intro hn
    simp only [SetPageCount]
    split <;> omega
  case hreq =>
    intro l2 env req hsome
    unfold listingNext at hsome
    by_cases he : l2.err.isSome
    · simp [he] at hsome
    · simp only [he, if_false] at hsome
      by_cases hb : 0 < (if 0 < l2.objects.length then l2.objects.dropLast else l2.objects).length
      · simp [hb] at hsome
      · simp only [hb, if_false] at hsome
        cases hnn : l2.nextName with
        | none => simp [hnn] at hsome
        | some s =>
          simp only [hnn] at hsome
          cases env with
          | reqError e =>
            simp only [Bool.false_eq_true, if_false, Prod.mk.injEq, Option.some.injEq] at hsome
            rw [← hsome]
          | decodeError e =>
            simp only [Bool.false_eq_true, if_false, Prod.mk.injEq, Option.some.injEq] at hsome
            rw [← hsome]
          | page files nn nid =>
            simp only [Bool.false_eq_true, if_false, Prod.mk.injEq, Option.some.injEq] at hsome
            rw [← hsome]
  case hpres =>
    intro l2 env
    unfold listingNext
    by_cases he : l2.err.isSome
    · simp [he]
    · simp only [he, if_false]
      by_cases hb : 0 < (if 0 < l2.objects.length then l2.objects.dropLast else l2.objects).length
      · simp [hb]
      · simp only [hb, if_false]
        cases hnn : l2.nextName with
        | none => simp
        | some s => cases env <;> simp

/-- C9 witness: `SetPageCount 7` on a fresh listing installs page size 7,
inside `1..1000`, and the request issued by the next `Next` carries it. -/
theorem setPageCount_clamp_witness :
    ((SetPageCount (ListFiles "bkt1" { FromName := "", FromID := "", pfx := "", dlm := "" }) 7).nextPageCount = 7) ∧
    (1 ≤ (SetPageCount (ListFiles "bkt1" { FromName := "", FromID := "", pfx := "", dlm := "" }) 7).nextPageCount ∧
      (SetPageCount (ListFiles "bkt1" { FromName := "", FromID := "", pfx := "", dlm := "" }) 7).nextPageCount ≤ 1000) ∧
    ({ endpoint := "b2_list_file_names", bucketId := "bkt1", startFileName := "",
       maxFileCount := 7, startFileId := none, pfxParam := none, dlmParam := none : ListReq}.maxFileCount =
      (SetPageCount (ListFiles "bkt1" { FromName := "", FromID := "", pfx := "", dlm := "" }) 7).nextPageCount) :=
  ⟨(setPageCount_clamp (ListFiles "bkt1" { FromName := "", FromID := "", pfx := "", dlm := "" }) 7).1 (by decide),
   (setPageCount_clamp (ListFiles "bkt1" { FromName := "", FromID := "", pfx := "", dlm := "" }) 7).2.2.1 (by decide),
   (setPageCount_clamp (ListFiles "bkt1" { FromName := "", FromID := "", pfx := "", dlm := "" }) 7).2.2.2.1
     (SetPageCount (ListFiles "bkt1" { FromName := "", FromID := "", pfx := "", dlm := "" }) 7)
     envSample _ (by decide)⟩

/-- C5 counterexample: an `io.ReadSeeker` handed to `Upload` at read offset 1.
The checksum pass hashes only the remaining suffix `[2, 3]` (and declares
length 2), but after `Seek(0, io.SeekStart)` the body serves all of
`[1, 2, 3]` — the transmitted bytes are not the hashed bytes. -/
theorem upload_midstream_seeker_mismatch :
    hashedBytes (.seeker [1, 2, 3] 1) = [2, 3] ∧
    uploadLength (.seeker [1, 2, 3] 1) = 2 ∧
    transmittedBytes (.seeker [1, 2, 3] 1) = [1, 2, 3] ∧
    transmittedBytes (.seeker [1, 2, 3] 1) ≠ hashedBytes (.seeker [1, 2, 3] 1) := by
  refine ⟨rfl, rfl, rfl, ?_⟩
  decide

/-- C5 amended: for every stream whose body starts at read offset 0 — always
the case for the `*bytes.Buffer` and plain-reader strategies, and for an
`io.ReadSeeker` handed in at its start — the length computed by the checksum
pass equals the `Content-Length` declared on the upload request, and the body
transmitted after seeking back to the start is exactly the hashed byte
sequence, never truncated and never double-counted. (A `ReadSeeker` at a
non-zero initial offset violates the property; see the counterexample.) -/
theorem upload_checksum_roundtrip (src : UploadSource) (h : (mkBody src).pos = 0) :
    transmittedBytes src = hashedBytes src ∧
    uploadLength src = ((hashedBytes src).length : Int) ∧
    (∀ pool sha1Sum envGet envDo req,
      (uploadWithSHA1 pool sha1Sum (uploadLength src) envGet envDo).2.2 = some req →
      req.contentLength = uploadLength src) := by
  refine ⟨?_, rfl, ?_⟩
  · simp [transmittedBytes, hashedBytes, readRemaining, seekToStart, mkBody, h]
    cases src with
    | buf b => rfl
    | seeker d p =>
      simp only [mkBody] at h ⊢
      rw [h]
      simp
    | plain d => rfl
  · intro pool sha1Sum envGet envDo req hsome
    unfold uploadWithSHA1 at hsome
    cases hget : getUploadURL pool envGet with
    | mk g rest =>
      rw [hget] at hsome
      cases g with
      | error e => simp at hsome
      | ok uurl =>
        cases envDo with
        | doErr e =>
          simp only [Option.some.injEq] at hsome
          rw [← hsome]
        | resp dec =>
          cases dec with
          | error e =>
            simp only [Option.some.injEq] at hsome
            rw [← hsome]
          | ok fi =>
            simp only [Option.some.injEq] at hsome
            rw [← hsome]

/-- C5 witness: a plain reader of two bytes satisfies the offset-0 hypothesis;
its transmitted body equals its hashed bytes and the declared length matches. -/
theorem upload_checksum_roundtrip_witness :
    transmittedBytes (.plain [5, 6]) = hashedBytes (.plain [5, 6]) ∧
    uploadLength (.plain [5, 6]) = ((hashedBytes (.plain [5, 6])).length : Int) ∧
    (∀ pool sha1Sum envGet envDo req,
      (uploadWithSHA1 pool sha1Sum (uploadLength (.plain [5, 6])) envGet envDo).2.2 = some req →
      req.contentLength = uploadLength (.plain [5, 6])) :=
  upload_checksum_roundtrip (.plain [5, 6]) rfl

/-- C2 (code bug): `getWithAuth` does refresh and retry exactly once on a 401,
but the retried request is rebuilt from the URL alone and the `Range` header is
not re-applied — the retry is not the identical request whenever a `Range` was
set. Evaluated at a concrete ranged download whose first GET fails with 401:
the first request carries `Range: bytes=2-3`, the retried one carries no
`Range` header at all. -/
theorem getWithAuth_retry_drops_range :
    (getWithAuth "https://dl/file/bkt1/obj" "bytes=2-3" cexGetEnv).2.1 =
      [{ url := "https://dl/file/bkt1/obj", rangeHeader := some "bytes=2-3" },
       { url := "https://dl/file/bkt1/obj", rangeHeader := none }] ∧
    (getWithAuth "https://dl/file/bkt1/obj" "bytes=2-3" cexGetEnv).2.2 = 1 ∧
    ({ url := "https://dl/file/bkt1/obj", rangeHeader := none } : HReq) ≠
      { url := "https://dl/file/bkt1/obj", rangeHeader := some "bytes=2-3" } := by
  refine ⟨?_, rfl, ?_⟩
  · rfl
  · decide

/-- C8: the upload-URL pool is LIFO and never recycles a failed lease.
`getUploadURL` pops the most recently released URL when the cache is non-empty
(no control-plane request) and requests a new one only when it is empty;
`putUploadURL` pushes at the same end; an attempt failing in transport or in
decoding leaves the pool exactly as it was after the pop — the lease is
dropped — while only a fully successful attempt appends its lease back. -/
theorem uploadURL_pool_lifo_no_recycle :
    (∀ (ps : List UploadURLRec) (u : UploadURLRec) (env : Except B2Err UploadURLRec),
      getUploadURL (ps ++ [u]) env = (.ok u, ps, false)) ∧
    (∀ e, getUploadURL [] (.error e) = (.error e, [], true)) ∧
    (∀ u, getUploadURL [] (.ok u) = (.ok u, [], true)) ∧
    (∀ pool u, putUploadURL pool u = pool ++ [u]) ∧
    (∀ pool sha1Sum length envGet e,
      (uploadWithSHA1 pool sha1Sum length envGet (.doErr e)).2.1 =
        (getUploadURL pool envGet).2.1) ∧
    (∀ pool sha1Sum length envGet e,
      (uploadWithSHA1 pool sha1Sum length envGet (.resp (.error e))).2.1 =
        (getUploadURL pool envGet).2.1) ∧
    (∀ pool sha1Sum length envGet u fi, (getUploadURL pool envGet).1 = .ok u →
      (uploadWithSHA1 pool sha1Sum length envGet (.resp (.ok fi))).2.1 =
        (getUploadURL pool envGet).2.1 ++ [u]) := by
  refine ⟨?_, fun e => rfl, fun u => rfl, fun pool u => rfl, ?_, ?_, ?_⟩
  · intro ps u env
    simp [getUploadURL, List.getLast?_concat, List.dropLast_concat]
  · intro pool sha1Sum length envGet e
    unfold uploadWithSHA1
    cases hget : getUploadURL pool envGet with
    | mk g rest =>
      cases g with
      | error e2 => rfl
      | ok uurl => rfl
  · intro pool sha1Sum length envGet e
    unfold uploadWithSHA1
    cases hget : getUploadURL pool envGet with
    | mk g rest =>
      cases g with
      | error e2 => rfl
      | ok uurl => rfl
  · intro pool sha1Sum length envGet u fi hok
    unfold uploadWithSHA1
    cases hget : getUploadURL pool envGet with
    | mk g rest =>
      rw [hget] at hok
      cases g with
      | error e2 => simp at hok
      | ok uurl =>
        simp only [Except.ok.injEq] at hok
        subst hok
        rfl

/-- C8 witness: popping from a two-lease cache returns the most recently
pushed lease without a request, and a successful attempt returns its lease. -/
theorem uploadURL_pool_lifo_no_recycle_witness :
    getUploadURL ([uSample] ++ [uSample2]) (.error eOther) = (.ok uSample2, [uSample], false) ∧
    (uploadWithSHA1 [uSample] "da39a3ee" 4 (.error eOther) (.resp (.ok objSample))).2.1 =
      (getUploadURL [uSample] (.error eOther)).2.1 ++ [uSample] :=
  ⟨uploadURL_pool_lifo_no_recycle.1 [uSample] uSample2 (.error eOther),
   uploadURL_pool_lifo_no_recycle.2.2.2.2.2.2 [uSample] "da39a3ee" 4 (.error eOther)
     uSample objSample rfl⟩

/-- C6: a `Listing`'s terminal states are permanent and distinguishable.
From the exhausted state (no error, cursor absent, buffer empty) every `Next`
returns `false`, changes nothing, issues no request, and `Err` stays `nil`;
from the failed state (`err` set) every `Next` returns `false`, changes
nothing, issues no request, and `Err` keeps returning that same error; the
`Next` that finds the cursor absent lands exactly in the exhausted state. -/
theorem listing_terminal_states (l : Listing) :
    (l.err = none → l.nextName = none → l.objects = [] →
      ∀ es e, runNexts l es = l ∧
        listingNext l e = (false, l, none) ∧ listingErr l = none) ∧
    (∀ e0, l.err = some e0 →
      ∀ es e, runNexts l es = l ∧
        listingNext l e = (false, l, none) ∧ listingErr l = some e0) ∧
    (l.err = none → l.nextName = none → l.objects.length ≤ 1 →
      ∀ e, (listingNext l e).1 = false ∧
        (listingNext l e).2.1 = { l with objects := [] } ∧
        (listingNext l e).2.2 = none ∧
        ({ l with objects := [] } : Listing).err = none ∧
        ({ l with objects := [] } : Listing).nextName = none) := by
  have hexh : l.err = none → l.nextName = none → l.objects = [] →
      ∀ e, listingNext l e = (false, l, none) := by
    intro h1 h2 h3 e
    obtain ⟨bid, v, npc, nn, nid, px, dl, objs0, er⟩ := l
    simp only at h1 h2 h3
    subst h1
    subst h2
    subst h3
    rfl
  have hfail : ∀ e0, l.err = some e0 → ∀ e, listingNext l e = (false, l, none) := by
    intro e0 h0 e
    unfold listingNext
    simp [h0]
  refine ⟨?_, ?_, ?_⟩
  · intro h1 h2 h3 es e
    refine ⟨?_, hexh h1 h2 h3 e, by simp [listingErr, h1]⟩
    induction es with
    | nil => rfl
    | cons x xs ih =>
      have hstep : nextState l x = l := by
        simp [nextState, hexh h1 h2 h3 x]
      simp [runNexts, List.foldl_cons, hstep]
      simpa [runNexts] using ih
  · intro e0 h0 es e
    refine ⟨?_, hfail e0 h0 e, by simp [listingErr, h0]⟩
    induction es with
    | nil => rfl
    | cons x xs ih =>
      have hstep : nextState l x = l := by
        simp [nextState, hfail e0 h0 x]
      simp [runNexts, List.foldl_cons, hstep]
      simpa [runNexts] using ih
  · intro h1 h2 hlen e
    cases hobj : l.objects with
    | nil =>
      have := hexh h1 h2 hobj e
      rw [this]
      refine ⟨rfl, ?_, rfl, by simp [h1], by simp [h2]⟩
      rw [← hobj]
    | cons a rest =>
      cases rest with
      | nil =>
        unfold listingNext
        simp [h1, h2, hobj]
      | cons b rest2 =>
        rw [hobj] at hlen
        simp at hlen

/-- C6 witness: a concrete exhausted listing and a concrete failed listing:
`Next` returns `false` without state change or request, and `Err` is `nil`
in the first and the stored error in the second. -/
theorem listing_terminal_states_witness :
    (listingNext (⟨"bkt1", false, 0, none, none, "", "", [], none⟩ : Listing) envSample =
      (false, (⟨"bkt1", false, 0, none, none, "", "", [], none⟩ : Listing), none)) ∧
    (listingNext (⟨"bkt1", false, 0, none, none, "", "", [], some eOther⟩ : Listing) envSample =
      (false, (⟨"bkt1", false, 0, none, none, "", "", [], some eOther⟩ : Listing), none) ∧
      listingErr (⟨"bkt1", false, 0, none, none, "", "", [], some eOther⟩ : Listing) = some eOther) :=
  ⟨((listing_terminal_states _).1 rfl rfl rfl [] envSample).2.1,
   ((listing_terminal_states _).2.1 eOther rfl [] envSample).2⟩

/-- Draining an empty buffer yields nothing. -/
theorem drainObjects_nil : drainObjects [] = [] := by
  unfold drainObjects
  rfl

/-- Draining pops from the end: the last element comes first. -/
theorem drainObjects_concat (ys : List FileInfo) (x : FileInfo) :
    drainObjects (ys ++ [x]) = x :: drainObjects ys := by
  conv_lhs => unfold drainObjects
  split
  · next h => simp at h
  · next y h =>
    rw [List.getLast?_concat] at h
    obtain rfl : x = y := by simpa using h
    rw [List.dropLast_concat]

/-- Draining a reversed buffer restores the original order. -/
theorem drainObjects_reverse (xs : List FileInfo) :
    drainObjects xs.reverse = xs := by
  induction xs with
  | nil => simp [drainObjects_nil]
  | cons a t ih => simp [List.reverse_cons, drainObjects_concat, ih]

/-- C7: a fetched page is stored in reverse (`objects[len-1-i] = files[i]`)
and consumed by popping from the end, yet the records observed through
repeated `Next`/`FileInfo` calls are exactly the page's records in the
server-given forward order: the reverse-buffer/pop-last implementation drains
to `specForwardIteration`, the spec-side forward iteration over the page. -/
theorem listing_page_forward_order (l : Listing) (files : List FileInfoObj)
    (nn nid : Option String) (s : String)
    (h1 : l.err = none) (h2 : l.objects.length ≤ 1) (h3 : l.nextName = some s) :
    ((listingNext l (.page files nn nid)).2.1.objects = (specForwardIteration files).reverse) ∧
    ((listingNext l (.page files nn nid)).1 = decide (0 < files.length)) ∧
    (drainObjects (listingNext l (.page files nn nid)).2.1.objects = specForwardIteration files) ∧
    (∀ page : List FileInfo, drainObjects page.reverse = page) := by
  have hfetch : listingNext l (.page files nn nid) =
      (decide (0 < ((files.map makeFileInfo).reverse : List FileInfo).length),
        { l with objects := (files.map makeFileInfo).reverse, nextName := nn, nextID := nid },
        some { endpoint := if l.versions then "b2_list_file_versions" else "b2_list_file_names"
               bucketId := l.bucketID
               startFileName := s
               maxFileCount := l.nextPageCount
               startFileId :=
                 match l.nextID with
                 | some fid => if fid ≠ "" then some fid else none
                 | none => none
               pfxParam := if 0 < l.pfx.length then some l.pfx else none
               dlmParam := if 0 < l.dlm.length then some l.dlm else none }) := by
    unfold listingNext
    have hb : ¬ 0 < (if 0 < l.objects.length then l.objects.dropLast else l.objects).length := by
      rcases hobj : l.objects with _ | ⟨a, rest⟩
      · simp
      · rcases rest with _ | ⟨b, rest2⟩
        · simp
        · rw [hobj] at h2
          simp at h2
    simp [h1, h3, hb]
  refine ⟨?_, ?_, ?_, drainObjects_reverse⟩
  · rw [hfetch]
    rfl
  · rw [hfetch]
    simp [specForwardIteration]
  · rw [hfetch]
    simpa [specForwardIteration] using drainObjects_reverse (files.map makeFileInfo)

/-- C7 witness: fetching a concrete two-record page buffers it reversed and
drains it in forward order. -/
theorem listing_page_forward_order_witness :
    ((listingNext (ListFiles "bkt1" { FromName := "", FromID := "", pfx := "", dlm := "" })
        (.page [objSample, objSample2] none none)).2.1.objects =
      (specForwardIteration [objSample, objSample2]).reverse) ∧
    ((listingNext (ListFiles "bkt1" { FromName := "", FromID := "", pfx := "", dlm := "" })
        (.page [objSample, objSample2] none none)).1 = decide (0 < [objSample, objSample2].length)) ∧
    (drainObjects (listingNext (ListFiles "bkt1" { FromName := "", FromID := "", pfx := "", dlm := "" })
        (.page [objSample, objSample2] none none)).2.1.objects =
      specForwardIteration [objSample, objSample2]) ∧
    (∀ page : List FileInfo, drainObjects page.reverse = page) :=
  listing_page_forward_order _ [objSample, objSample2] none none "" rfl (by decide) rfl

/-- C1 counterexample: `Upload`'s loop does not abort on a non-401 failure.
With a first attempt failing on a transport error and a second succeeding, the
loop runs a second attempt (two attempts, zero refreshes) and returns the
success — it neither stops after the failure nor surfaces that error. -/
theorem upload_non401_failure_retried :
    (uploadLoop 0 initPair itersRetry).1 = some { fi := some fiSample, err := none } ∧
    countAttempts (uploadLoop 0 initPair itersRetry).2 = 2 ∧
    countRefreshes (uploadLoop 0 initPair itersRetry).2 = 0 := by
  refine ⟨rfl, rfl, rfl⟩

/-- C1 amended: one iteration of `Upload`'s retry loop behaves as follows.
A 401-failed attempt triggers exactly one Session refresh before the next
attempt (trace `attempt, refreshOk, …next iteration…`, with the budget index
unchanged); if that refresh fails, the loop returns the refresh error. A
non-401 failure triggers zero refreshes but is *not* an abort: the loop
continues with the next attempt (budget index advanced), so only the retry
budget — not the first non-401 error — ends the iteration. A successful
attempt returns immediately. -/
theorem upload_retry_step (i : Nat) (last : GoPair) (it : UploadIter)
    (rest : List UploadIter) (hi : i < 5) (hs : it.seek = none) :
    (∀ fi, it.attempt = .ok fi →
      uploadLoop i last (it :: rest) =
        (some { fi := some fi, err := none }, [.seekOk, .attempt (.ok fi)])) ∧
    (∀ e, it.attempt = .err e → is401 e = true → it.login = none →
      uploadLoop i last (it :: rest) =
        ((uploadLoop i { fi := none, err := some e } rest).1,
          .seekOk :: .attempt (.err e) :: .refreshOk ::
            (uploadLoop i { fi := none, err := some e } rest).2)) ∧
    (∀ e le, it.attempt = .err e → is401 e = true → it.login = some le →
      uploadLoop i last (it :: rest) =
        (some { fi := none, err := some le },
          [.seekOk, .attempt (.err e), .refreshFail le])) ∧
    (∀ e, it.attempt = .err e → is401 e = false →
      uploadLoop i last (it :: rest) =
        ((uploadLoop (i + 1) { fi := none, err := some e } rest).1,
          .seekOk :: .attempt (.err e) ::
            (uploadLoop (i + 1) { fi := none, err := some e } rest).2)) := by
  have hni : ¬ 5 ≤ i := by omega
  obtain ⟨se, att, lo⟩ := it
  simp only at hs
  subst hs
  refine ⟨?_, ?_, ?_, ?_⟩
  · intro fi hatt
    simp only at hatt
    subst hatt
    simp [uploadLoop, hni]
  · intro e hatt h401 hlog
    simp only at hatt hlog
    subst hatt
    subst hlog
    simp [uploadLoop, hni, h401]
  · intro e le hatt h401 hlog
    simp only at hatt hlog
    subst hatt
    subst hlog
    simp [uploadLoop, hni, h401]
  · intro e hatt h401
    simp only at hatt
    subst hatt
    simp [uploadLoop, hni, h401]

/-- C1 witness: with a concrete 401-failed first attempt and successful
refresh, the loop's result is that of the continuation, with exactly the
single refresh event between the first and the second attempt. -/
theorem upload_retry_step_witness :
    uploadLoop 0 initPair (it401 :: [itOk]) =
      ((uploadLoop 0 { fi := none, err := some e401 } [itOk]).1,
        .seekOk :: .attempt (.err e401) :: .refreshOk ::
          (uploadLoop 0 { fi := none, err := some e401 } [itOk]).2) :=
  (upload_retry_step 0 initPair it401 [itOk] (by decide) rfl).2.1 e401 rfl (by decide) rfl

/-- C3 counterexample: `Upload` is not bounded by 5 attempts in total. When
the first attempt fails with 401 (and the refresh succeeds) the loop index is
decremented, so the budget admits five further non-401-failing attempts:
six `UploadWithSHA1` calls in one `Upload`. The final result is the last
attempt's error. -/
theorem upload_six_attempts :
    countAttempts (uploadLoop 0 initPair iters6).2 = 6 ∧
    ¬ countAttempts (uploadLoop 0 initPair iters6).2 ≤ 5 ∧
    (uploadLoop 0 initPair iters6).1 = some { fi := none, err := some eOther } := by
  refine ⟨rfl, by decide, rfl⟩

/-- Once the budget index reaches 5, the loop stops with the last pair. -/
theorem uploadLoop_stop (i : Nat) (last : GoPair) (iters : List UploadIter)
    (h : 5 ≤ i) : uploadLoop i last iters = (some last, []) := by
  cases iters <;> simp [uploadLoop, h]

/-- An exhausted environment inside the budget yields no result. -/
theorem uploadLoop_env_nil (i : Nat) (last : GoPair) (h : ¬ 5 ≤ i) :
    uploadLoop i last [] = (none, []) := by
  simp [uploadLoop, h]

/-- Loop step: a failed `Seek` returns that error at once. -/
theorem uploadLoop_cons_seekFail (i : Nat) (last : GoPair) (e : B2Err)
    (att : UpResult) (lo : Option B2Err) (rest : List UploadIter) (h : ¬ 5 ≤ i) :
    uploadLoop i last ({ seek := some e, attempt := att, login := lo } :: rest) =
      (some { fi := none, err := some e }, [.seekFail e]) := by
  simp [uploadLoop, h]

/-- Loop step: a successful attempt breaks out of the loop with the result. -/
theorem uploadLoop_cons_ok (i : Nat) (last : GoPair) (fi : FileInfo)
    (lo : Option B2Err) (rest : List UploadIter) (h : ¬ 5 ≤ i) :
    uploadLoop i last ({ seek := none, attempt := .ok fi, login := lo } :: rest) =
      (some { fi := some fi, err := none }, [.seekOk, .attempt (.ok fi)]) := by
  simp [uploadLoop, h]

/-- Loop step: a 401-failed attempt whose refresh fails returns the refresh
error. -/
theorem uploadLoop_cons_401_refreshFail (i : Nat) (last : GoPair) (e le : B2Err)
    (rest : List UploadIter) (h : ¬ 5 ≤ i) (h401 : is401 e = true) :
    uploadLoop i last ({ seek := none, attempt := .err e, login := some le } :: rest) =
      (some { fi := none, err := some le },
        [.seekOk, .attempt (.err e), .refreshFail le]) := by
  simp [uploadLoop, h, h401]

/-- Loop step: a 401-failed attempt with a successful refresh continues at the
same budget index (`i--` then `i++`). -/
theorem uploadLoop_cons_401_refreshOk (i : Nat) (last : GoPair) (e : B2Err)
    (rest : List UploadIter) (h : ¬ 5 ≤ i) (h401 : is401 e = true) :
    uploadLoop i last ({ seek := none, attempt := .err e, login := none } :: rest) =
      ((uploadLoop i { fi := none, err := some e } rest).1,
        .seekOk :: .attempt (.err e) :: .refreshOk ::
          (uploadLoop i { fi := none, err := some e } rest).2) := by
  simp [uploadLoop, h, h401]

/-- Loop step: a non-401-failed attempt continues at the next budget index,
with no refresh. -/
theorem uploadLoop_cons_nonauth (i : Nat) (last : GoPair) (e : B2Err)
    (lo : Option B2Err) (rest : List UploadIter) (h : ¬ 5 ≤ i)
    (h401 : is401 e = false) :
    uploadLoop i last ({ seek := none, attempt := .err e, login := lo } :: rest) =
      ((uploadLoop (i + 1) { fi := none, err := some e } rest).1,
        .seekOk :: .attempt (.err e) ::
          (uploadLoop (i + 1) { fi := none, err := some e } rest).2) := by
  simp [uploadLoop, h, h401]

/-- The budget only counts non-401 failures: any run of the loop started at
index `i` contains at most `5 - i` attempts failing with a non-401 error. -/
theorem uploadLoop_fails_le (iters : List UploadIter) :
    ∀ (i : Nat) (last : GoPair), countNonAuthFails (uploadLoop i last iters).2 ≤ 5 - i := by
  induction iters with
  | nil =>
    intro i last
    by_cases h : 5 ≤ i
    · rw [uploadLoop_stop _ _ _ h]
      simp [countNonAuthFails]
    · rw [uploadLoop_env_nil _ _ h]
      simp [countNonAuthFails]
  | cons it rest ih =>
    intro i last
    by_cases h : 5 ≤ i
    · rw [uploadLoop_stop _ _ _ h]
      simp [countNonAuthFails]
    · obtain ⟨se, att, lo⟩ := it
      cases se with
      | some e =>
        rw [uploadLoop_cons_seekFail _ _ _ _ _ _ h]
        simp [countNonAuthFails]
      | none =>
        cases att with
        | ok fi =>
          rw [uploadLoop_cons_ok _ _ _ _ _ h]
          simp [countNonAuthFails]
        | err e =>
          by_cases h401 : is401 e
          · cases lo with
            | some le =>
              rw [uploadLoop_cons_401_refreshFail _ _ _ _ _ h h401]
              simp [countNonAuthFails, h401]
            | none =>
              rw [uploadLoop_cons_401_refreshOk _ _ _ _ h h401]
              have := ih i { fi := none, err := some e }
              simp only [countNonAuthFails, List.countP_cons] at this ⊢
              simp [h401]
              omega
          · have h401f : is401 e = false := by simpa using h401
            rw [uploadLoop_cons_nonauth _ _ _ _ _ h h401f]
            have := ih (i + 1) { fi := none, err := some e }
            simp only [countNonAuthFails, List.countP_cons] at this ⊢
            simp [h401f]
            omega

/-- Inside the budget, every loop iteration leaves at least one event in the
trace. -/
theorem uploadLoop_trace_ne_nil (i : Nat) (last : GoPair) (it : UploadIter)
    (rest : List UploadIter) (h : ¬ 5 ≤ i) :
    (uploadLoop i last (it :: rest)).2 ≠ [] := by
  obtain ⟨se, att, lo⟩ := it
  cases se with
  | some e => simp [uploadLoop, h]
  | none =>
    cases att with
    | ok fi => simp [uploadLoop, h]
    | err e =>
      by_cases h401 : is401 e
      · cases lo with
        | some le => simp [uploadLoop, h, h401]
        | none => simp [uploadLoop, h, h401]
      · simp [uploadLoop, h, h401]

/-- When the loop returns a result and the trace ends with a failed attempt,
the returned pair is exactly that last attempt's error (with no `FileInfo`):
budget exhaustion surfaces the last error. -/
theorem uploadLoop_budget_last_err (iters : List UploadIter) :
    ∀ (i : Nat) (last p : GoPair) (e : B2Err),
      (uploadLoop i last iters).1 = some p →
      (uploadLoop i last iters).2.getLast? = some (.attempt (.err e)) →
      p = { fi := none, err := some e } := by
  induction iters with
  | nil =>
    intro i last p e h1 h2
    by_cases h : 5 ≤ i
    · simp [uploadLoop, h] at h2
    · simp [uploadLoop, h] at h1
  | cons it rest ih =>
    intro i last p e h1 h2
    by_cases h : 5 ≤ i
    · rw [uploadLoop_stop _ _ _ h] at h2
      simp at h2
    · obtain ⟨se, att, lo⟩ := it
      cases se with
      | some e2 =>
        rw [uploadLoop_cons_seekFail _ _ _ _ _ _ h] at h2
        simp [List.getLast?] at h2
      | none =>
        cases att with
        | ok fi =>
          rw [uploadLoop_cons_ok _ _ _ _ _ h] at h2
          simp [List.getLast?] at h2
        | err e0 =>
          by_cases h401 : is401 e0
          · cases lo with
            | some le =>
              rw [uploadLoop_cons_401_refreshFail _ _ _ _ _ h h401] at h2
              simp [List.getLast?] at h2
            | none =>
              rw [uploadLoop_cons_401_refreshOk _ _ _ _ h h401] at h1 h2
              dsimp only at h1 h2
              cases hT : (uploadLoop i { fi := none, err := some e0 } rest).2 with
              | nil =>
                rw [hT] at h2
                simp [List.getLast?] at h2
              | cons x xs =>
                rw [hT] at h2
                have h2i : (uploadLoop i { fi := none, err := some e0 } rest).2.getLast? =
                    some (.attempt (.err e)) := by
                  rw [hT]
                  simpa [List.getLast?_cons_cons] using h2
                exact ih i { fi := none, err := some e0 } p e h1 h2i
          · have h401f : is401 e0 = false := by simpa using h401
            rw [uploadLoop_cons_nonauth _ _ _ _ _ h h401f] at h1 h2
            dsimp only at h1 h2
            cases hT : (uploadLoop (i + 1) { fi := none, err := some e0 } rest).2 with
            | nil =>
              rw [hT] at h2
              have he : e0 = e := by simpa [List.getLast?] using h2
              subst he
              by_cases h5 : 5 ≤ i + 1
              · rw [uploadLoop_stop _ _ _ h5] at h1
                simpa using h1.symm
              · cases rest with
                | nil =>
                  rw [uploadLoop_env_nil _ _ h5] at h1
                  simp at h1
                | cons it2 rest2 => exact absurd hT (uploadLoop_trace_ne_nil _ _ _ _ h5)
            | cons x xs =>
              rw [hT] at h2
              have h2i : (uploadLoop (i + 1) { fi := none, err := some e0 } rest).2.getLast? =
                  some (.attempt (.err e)) := by
                rw [hT]
                simpa [List.getLast?_cons_cons] using h2
              exact ih (i + 1) { fi := none, err := some e0 } p e h1 h2i

/-- C3 amended: `Upload` performs at most 5 attempts *failing with a non-401
error* (401-failed attempts do not consume the budget, so the total attempt
count can exceed 5 — see the counterexample), and whenever it returns after a
trace ending in a failed attempt — in particular on budget exhaustion — the
returned error is that of the last attempt. -/
theorem upload_attempt_budget (iters : List UploadIter) (i : Nat) (last : GoPair) :
    countNonAuthFails (uploadLoop i last iters).2 ≤ 5 - i ∧
    (∀ (p : GoPair) (e : B2Err),
      (uploadLoop i last iters).1 = some p →
      (uploadLoop i last iters).2.getLast? = some (.attempt (.err e)) →
      p = { fi := none, err := some e }) :=
  ⟨uploadLoop_fails_le iters i last,
   fun p e h1 h2 => uploadLoop_budget_last_err iters i last p e h1 h2⟩

/-- C3 witness: in the concrete six-attempt run the bound on non-401 failures
holds with the budget exactly consumed, and the loop's result is the error of
the sixth and last attempt. -/
theorem upload_attempt_budget_witness :
    countNonAuthFails (uploadLoop 0 initPair iters6).2 ≤ 5 - 0 ∧
    ({ fi := none, err := some eOther } : GoPair) = { fi := none, err := some eOther } :=
  ⟨(upload_attempt_budget iters6 0 initPair).1,
   (upload_attempt_budget iters6 0 initPair).2
     { fi := none, err := some eOther } eOther rfl rfl⟩

end B2
